import Mathlib

/-!
Verification of the tool-execution layer of the code-investigator repository:
the path-safety guard (`filename_unsafe`), the filesystem tools
(`list_files`, `cat_file`, `grep_file`), the project-structure summarizer
(`get_project_structure` / `count_files`) and the mermaid diagram sanitizer
(`sanitise_mermaid_syntax`).

The Python sources are shallowly embedded: strings are `String`/`List Char`,
the filesystem is a finite tree of named nodes plus a finite symlink map,
Python string/path idioms (`strip`, `split`, `startswith`, `Path.parts`,
`Path.resolve`, `readlines`, `sorted(set(...))`) are reimplemented over
`List Char` with Python's semantics.  Recursions over text use an explicit
fuel argument that is always called with fuel larger than the text length,
so it is never exhausted; this keeps every definition structurally recursive
and executable.
-/

namespace CodeInvestigator

/- ### Python-style character and string primitives -/

/-- Python whitespace for `str.strip` and the regex class `\s`
(ASCII fragment: space, tab, newline, carriage return, vertical tab, form feed). -/
def isWs (c : Char) : Bool :=
  c = ' ' || c = '\t' || c = '\n' || c = '\r' || c = '\x0B' || c = '\x0C'

/-- Python `str.strip()`: drop leading and trailing whitespace. -/
def pyStrip (l : List Char) : List Char :=
  ((l.dropWhile isWs).reverse.dropWhile isWs).reverse

/-- Python substring test `sub in s`. -/
def containsL (sub : List Char) : List Char → Bool
  | [] => sub.isEmpty
  | c :: t => sub.isPrefixOf (c :: t) || containsL sub t

/-- Python `str.split(sep)` for a one-character separator (keeps empty pieces). -/
def splitOnCharL (sep : Char) : List Char → List (List Char)
  | [] => [[]]
  | c :: t =>
    if c = sep then [] :: splitOnCharL sep t
    else
      match splitOnCharL sep t with
      | [] => [[c]]
      | h :: r => (c :: h) :: r

/-- Python `str.split(sub)` for a multi-character separator; fuel-driven,
called with fuel above the string length. -/
def splitOnSubF (sub : List Char) : Nat → List Char → List (List Char)
  | 0, s => [s]
  | _ + 1, [] => [[]]
  | f + 1, c :: t =>
    if sub ≠ [] && sub.isPrefixOf (c :: t) then
      [] :: splitOnSubF sub f ((c :: t).drop sub.length)
    else
      match splitOnSubF sub f t with
      | [] => [[c]]
      | h :: r => (c :: h) :: r

/-- Python `str.replace(old, new, 1)`: replace the first occurrence, if any. -/
def replaceFirstL (old new : List Char) : List Char → List Char
  | [] => []
  | c :: t =>
    if old.isPrefixOf (c :: t) then new ++ (c :: t).drop old.length
    else c :: replaceFirstL old new t

/-- Python `str.replace(old, new)`: replace every (non-overlapping, leftmost)
occurrence; fuel-driven, called with fuel above the string length. -/
def replaceAllF (old new : List Char) : Nat → List Char → List Char
  | 0, s => s
  | _ + 1, [] => []
  | f + 1, c :: t =>
    if old ≠ [] && old.isPrefixOf (c :: t) then
      new ++ replaceAllF old new f ((c :: t).drop old.length)
    else c :: replaceAllF old new f t

def digitsVal (l : List Char) : Nat :=
  l.foldl (fun a c => a * 10 + (c.toNat - 48)) 0

/-- Python `int(s)`: optional surrounding whitespace, optional sign, digits. -/
def pyIntOpt (l : List Char) : Option Int :=
  match pyStrip l with
  | [] => none
  | '-' :: ds => if ds ≠ [] && ds.all Char.isDigit then some (-(digitsVal ds : Int)) else none
  | '+' :: ds => if ds ≠ [] && ds.all Char.isDigit then some ((digitsVal ds : Int)) else none
  | ds => if ds.all Char.isDigit then some ((digitsVal ds : Int)) else none

/-- Python `s.startswith(pre)`. -/
def startsWithS (s pre : String) : Bool := pre.data.isPrefixOf s.data

/-- Code-point lexicographic order on character lists: how Python compares
strings (`sorted` on `str`). -/
def listLeB : List Char → List Char → Bool
  | [], _ => true
  | _ :: _, [] => false
  | a :: s, b :: t =>
    if a.toNat < b.toNat then true
    else if b.toNat < a.toNat then false
    else listLeB s t

/-- Python string order as a proposition, for `List.insertionSort`. -/
def strLe (a b : String) : Prop := listLeB a.data b.data = true

instance : DecidableRel strLe := fun _ _ => inferInstanceAs (Decidable (_ = true))

theorem listLeB_total : ∀ s t : List Char, listLeB s t = true ∨ listLeB t s = true
  | [], _ => Or.inl rfl
  | _ :: _, [] => Or.inr rfl
  | a :: s, b :: t => by
    simp only [listLeB]
    rcases Nat.lt_trichotomy a.toNat b.toNat with h | h | h
    · left; simp [h]
    · have h1 : ¬ a.toNat < b.toNat := by omega
      have h2 : ¬ b.toNat < a.toNat := by omega
      simpa [h1, h2] using listLeB_total s t
    · right; simp [h]

theorem listLeB_trans : ∀ s t u : List Char,
    listLeB s t = true → listLeB t u = true → listLeB s u = true
  | [], _, _, _, _ => rfl
  | _ :: _, [], _, h, _ => by simp [listLeB] at h
  | _ :: _, _ :: _, [], _, h2 => by simp [listLeB] at h2
  | a :: s, b :: t, c :: u, h1, h2 => by
    simp only [listLeB] at h1 h2 ⊢
    rcases Nat.lt_trichotomy a.toNat b.toNat with hab | hab | hab
    · rcases Nat.lt_trichotomy b.toNat c.toNat with hbc | hbc | hbc
      · simp [show a.toNat < c.toNat by omega]
      · simp [show a.toNat < c.toNat by omega]
      · rw [if_neg (by omega), if_pos hbc] at h2
        exact absurd h2 (by simp)
    · rw [if_neg (by omega), if_neg (by omega)] at h1
      rcases Nat.lt_trichotomy b.toNat c.toNat with hbc | hbc | hbc
      · simp [show a.toNat < c.toNat by omega]
      · rw [if_neg (by omega), if_neg (by omega)] at h2 ⊢
        exact listLeB_trans s t u h1 h2
      · rw [if_neg (by omega), if_pos hbc] at h2
        exact absurd h2 (by simp)
    · rw [if_neg (by omega), if_pos hab] at h1
      exact absurd h1 (by simp)

instance : IsTotal String strLe := ⟨fun a b => listLeB_total a.data b.data⟩

instance : IsTrans String strLe := ⟨fun a b c => listLeB_trans a.data b.data c.data⟩

/-- Join a list of strings with a separator (Python `sep.join(ls)`). -/
def joinWith (sep : String) (ls : List String) : String :=
  String.mk (List.intercalate sep.data (ls.map String.data))

/-- ASCII `str.lower` on one character. -/
def pyLowerC (c : Char) : Char :=
  if 'A' ≤ c && c ≤ 'Z' then Char.ofNat (c.toNat + 32) else c

/-- Python `str.lower` (ASCII fragment; the repository only lowercases paths). -/
def pyLower (s : String) : String := String.mk (s.data.map pyLowerC)

/- ### Paths, symlinks and the filesystem world -/

/-- Python `Path(s).parts` for a POSIX path: split on `/`, dropping empty
components and `.` (pathlib normalizes both away, keeping `..`). -/
def pyParts (s : String) : List String :=
  ((splitOnCharL '/' s.data).map (fun l => String.mk l)).filter
    (fun c => c ≠ "" && c ≠ ".")

/-- Python `Path(s).is_absolute()` for POSIX. -/
def isAbsPath (s : String) : Bool := s.data.head? = some '/'

/-- `str(Path)` for an absolute path given by its components. -/
def renderAbs (parts : List String) : String := "/" ++ String.intercalate "/" parts

def lookupLink (links : List (List String × List String)) (p : List String) :
    Option (List String) :=
  match links.find? (fun e => e.1 == p) with
  | some e => some e.2
  | none => none

/-- `Path.resolve()` over the symlink map: process components left to right,
popping on `..`, skipping `.`, and following a symlink (absolute target)
whenever the path built so far is one.  Fuel-driven; fuel 1000 is far above
any chain arising in this development (Python itself fails on long chains). -/
def resolveSteps (links : List (List String × List String)) :
    Nat → List String → List String → List String
  | 0, acc, rest => acc ++ rest
  | _ + 1, acc, [] => acc
  | f + 1, acc, c :: rest =>
    if c = ".." then resolveSteps links f acc.dropLast rest
    else if c = "." then resolveSteps links f acc rest
    else
      match lookupLink links (acc ++ [c]) with
      | some target => resolveSteps links f target rest
      | none => resolveSteps links f (acc ++ [c]) rest

def resolveFuel : Nat := 1000

def resolvedPath (links : List (List String × List String)) (parts : List String) :
    List String :=
  resolveSteps links resolveFuel [] parts

/-- A filesystem node: a regular file with its text content, or a directory
with its named children. -/
inductive FsNode where
  | file (content : String)
  | dir (children : List (String × FsNode))

/-- The state the tools run against: the absolute current working directory
(assumed canonical), the symlink map over absolute paths, the directory tree
rooted at the cwd, and the language/framework pair the external
`ProjectTypeAgent` collaborator reports. -/
structure World where
  cwd : List String
  links : List (List String × List String)
  tree : FsNode
  lang : String
  framework : String

/-- `filename_unsafe` from `src/utils/file_utils.py` (also inlined in
`src/main.py`): absolute paths and `..` segments are rejected, then the
symlink-resolved form of `cwd / path` is compared against the resolved cwd
by a *string prefix* test, exactly as the source does. -/
def filenameUnsafe (w : World) (filename : String) : Bool :=
  if isAbsPath filename then true
  else if (pyParts filename).any (fun part => part == "..") then true
  else
    let resolved := resolvedPath w.links (w.cwd ++ pyParts filename)
    let cwdR := resolvedPath w.links w.cwd
    !(startsWithS (renderAbs resolved) (renderAbs cwdR))

/-- The descendant relation the spec asks the guard to decide: the resolved
request is inside (or equal to) the resolved working directory,
component-wise. -/
def resolvedInsideCwd (w : World) (filename : String) : Bool :=
  (resolvedPath w.links w.cwd).isPrefixOf
    (resolvedPath w.links (w.cwd ++ pyParts filename))

def navigate : FsNode → List String → Option FsNode
  | t, [] => some t
  | FsNode.file _, _ :: _ => none
  | FsNode.dir cs, n :: rest =>
    match cs.find? (fun c => c.1 == n) with
    | some c => navigate c.2 rest
    | none => none

/-- Interpret a path argument against the world: resolve it (symlinks, `..`)
and walk the cwd tree when the resolution lands inside the cwd.  This models
`Path(p).exists()` / `is_file()` / `is_dir()` / `open(p)`, all of which
follow symlinks; paths resolving outside the cwd tree are not modelled and
count as missing. -/
def lookupPath (w : World) (p : String) : Option FsNode :=
  let base := if isAbsPath p then pyParts p else w.cwd ++ pyParts p
  let r := resolvedPath w.links base
  let cwdR := resolvedPath w.links w.cwd
  if cwdR.isPrefixOf r then navigate w.tree (r.drop cwdR.length) else none

/-- `is_a_valid_file` from `src/utils/file_utils.py`. -/
def is_a_valid_file (w : World) (file_path : String) : Bool :=
  match lookupPath w file_path with
  | some (FsNode.file _) => true
  | _ => false

/-- `is_a_valid_directory` from `src/utils/file_utils.py`. -/
def is_a_valid_directory (w : World) (directory : String) : Bool :=
  match lookupPath w directory with
  | some (FsNode.dir _) => true
  | _ => false

/- ### cat_file -/

def readmeStub : String := "# README\n\n- TODO\n\n"

/-- `cat_file` from `src/tools/file_tools.py`: guard, validity, the README
stub rule and the actual read, in source order. -/
def cat_file (w : World) (file_path : String) : String :=
  if filenameUnsafe w file_path then "Forbidden"
  else if !(is_a_valid_file w file_path) then "Not a valid file: " ++ file_path
  else if containsL ("readme".data) ((pyLower file_path).data) then readmeStub
  else
    match lookupPath w file_path with
    | some (FsNode.file content) => content
    | _ => "File not found: " ++ file_path

/- ### grep_file -/

/-- Python `file.readlines()`: split the content into lines, each keeping its
terminating newline; a last unterminated line is kept as is. -/
def readLinesL : List Char → List (List Char)
  | [] => []
  | c :: t =>
    if c = '\n' then ['\n'] :: readLinesL t
    else
      match readLinesL t with
      | [] => [[c]]
      | h :: r => (c :: h) :: r

def parenOkAux : List Char → Nat → Bool
  | [], d => d = 0
  | c :: t, d =>
    if c = '(' then parenOkAux t (d + 1)
    else if c = ')' then
      match d with
      | 0 => false
      | d2 + 1 => parenOkAux t d2
    else parenOkAux t d

/-- Modelled from Python `re`: the source hands caller-supplied patterns to
`re.search` unchecked.  We model the fragment this development exercises: a
pattern with unbalanced parentheses is malformed (`re.compile` raises
`re.error`); a well-formed pattern is treated as a literal and matches a
line iff it occurs in it as a substring. -/
def reMalformed (pat : String) : Bool := !(parenOkAux pat.data 0)

/-- Modelled from Python `re`: `re.search` for the literal fragment (see
`reMalformed`). -/
def reSearchBool (pat line : String) : Bool := containsL pat.data line.data

/-- One emitted line of `grep_file`: `f"Line: {j+1} - {lines[j]}"`
(0-based index `j`, 1-based label). -/
def lineEntry (lines : List String) (j : Nat) : String :=
  "Line: " ++ toString (j + 1) ++ " - " ++ lines.getD j ""

/-- The block `grep_file` emits for a match at 0-based line `i`:
`include_before_lines` lines of leading context, the match,
`include_after_lines` lines of trailing context, and the `---` separator
whenever the context window ends before the last line of the file. -/
def groupAt (lines : List String) (b a : Int) (i : Nat) : List String :=
  let n := lines.length
  let startI : Int := max 0 ((i : Int) - b)
  let endI : Int := min (n : Int) ((i : Int) + a + 1)
  ((List.range' startI.toNat (i - startI.toNat)).map (lineEntry lines))
    ++ [lineEntry lines i]
    ++ ((List.range' (i + 1) (endI.toNat - (i + 1))).map (lineEntry lines))
    ++ (if endI < (n : Int) then ["---"] else [])

/-- The enumerate-and-append loop of `grep_file`, over a list of 0-based
line indices. -/
def grepLoop (pat : String) (lines : List String) (b a : Int) : List Nat → List String
  | [] => []
  | i :: is =>
    (if reSearchBool pat (lines.getD i "") then groupAt lines b a i else [])
      ++ grepLoop pat lines b a is

/-- `grep_file` from `src/tools/file_tools.py`.  The result is `Except`: the
source catches only `FileNotFoundError`, so the `re.error` a malformed
pattern raises on the first `re.search` call escapes to the caller, which we
model as `Except.error`.  The `if not include_before_lines` normalization in
the source only maps the integer 0 to 0, hence is kept as the identity it is. -/
def grep_file (w : World) (file_path pat : String)
    (include_before_lines include_after_lines : Int) : Except String String :=
  if filenameUnsafe w file_path then Except.ok "Forbidden"
  else if !(is_a_valid_file w file_path) then Except.ok ("Not a valid file: " ++ file_path)
  else
    let b := if include_before_lines = 0 then 0 else include_before_lines
    let a := if include_after_lines = 0 then 0 else include_after_lines
    match lookupPath w file_path with
    | some (FsNode.file content) =>
      let lines := (readLinesL content.data).map String.mk
      if reMalformed pat && !lines.isEmpty then
        Except.error "re.error: missing ), unterminated subpattern"
      else Except.ok (joinWith "\n" (grepLoop pat lines b a (List.range lines.length)))
    | _ => Except.ok ("File not found: " ++ file_path)

/- ### list_files -/

def denyListFive : List String := ["node_modules", "vendor", "dist", "build", "public"]

def isDirNode : FsNode → Bool
  | FsNode.dir _ => true
  | FsNode.file _ => false

mutual

/-- Number of nodes of a tree; only used as recursion fuel for the walks
below (fuel ≥ node count ≥ depth, so it is never exhausted). -/
def fsSize : FsNode → Nat
  | FsNode.file _ => 1
  | FsNode.dir cs => 1 + fsSizeL cs

def fsSizeL : List (String × FsNode) → Nat
  | [] => 0
  | c :: t => fsSize c.2 + fsSizeL t

end

/-- `Path(directory).rglob("*")`: every strict descendant of the tree, as
(relative component list, is-directory) pairs. -/
def allDescF : Nat → FsNode → List (List String × Bool)
  | 0, _ => []
  | _ + 1, FsNode.file _ => []
  | fuel + 1, FsNode.dir cs =>
    cs.flatMap (fun c =>
      ([c.1], isDirNode c.2)
        :: (allDescF fuel c.2).map (fun pr => (c.1 :: pr.1, pr.2)))

/-- The filter of the recursive branch of `list_files`: no component hidden,
no component on the deny list. -/
def keepPath (parts : List String) : Bool :=
  !(parts.any (fun part => startsWithS part ".")) &&
    !(parts.any (fun part => denyListFive.contains part))

/-- The `rglob` enumeration of `list_files(directory, recursive=True)` after
its filter; each path carries the `directory` argument as prefix, exactly as
`p.parts` does in the source. -/
def rglobFiltered (w : World) (directory : String) : List (List String × Bool) :=
  match lookupPath w directory with
  | some t =>
    ((allDescF (fsSize t) t).map (fun pr => (pyParts directory ++ pr.1, pr.2))).filter
      (fun pr => keepPath pr.1)
  | none => []

/-- `str(p)` for a path given by components, with the trailing `/` the source
appends to directories. -/
def renderRel (parts : List String) (d : Bool) : String :=
  String.intercalate "/" parts ++ (if d then "/" else "")

/-- Python `sorted` on strings (code-point lexicographic, stable). -/
def sortStrings (l : List String) : List String := List.insertionSort strLe l

/-- Python `sorted(set(l))`. -/
def sortedDedup (l : List String) : List String := sortStrings l.dedup

/-- The path sequence `list_files(directory, recursive=True)` joins and
returns: filtered rglob results, rendered, deduplicated and sorted. -/
def recursiveListing (w : World) (directory : String) : List String :=
  sortedDedup ((rglobFiltered w directory).map (fun pr => renderRel pr.1 pr.2))

/-- `list_files` from `src/tools/file_tools.py`. -/
def list_files (w : World) (directory : String) (recursive : Bool) : String :=
  if filenameUnsafe w directory then "Forbidden"
  else if !(is_a_valid_directory w directory) then "Not a valid directory: " ++ directory
  else if recursive then joinWith "\n" (recursiveListing w directory)
  else
    match lookupPath w directory with
    | some (FsNode.dir cs) =>
      joinWith "\n" ((cs.filter (fun c => !(startsWithS c.1 "."))).map
        (fun c => renderRel (pyParts directory ++ [c.1]) (isDirNode c.2)))
    | _ => "Directory not found: " ++ directory

/- ### get_project_structure and count_files -/

def denyListEight : List String :=
  ["node_modules", "vendor", "dist", "storage", "build", "public", "cache", "logs"]

/-- `len([f for f in item.iterdir() if not f.name.startswith('.')])`: the
count of non-hidden direct children (files and directories alike). -/
def nonHiddenCount (cs : List (String × FsNode)) : Nat :=
  (cs.filter (fun c => !(startsWithS c.1 "."))).length

/-- `'  ' * indent`. -/
def indentPad (indent : Nat) : String := String.mk (List.replicate (2 * indent) ' ')

/-- `sorted(Path(path).iterdir())`: children sorted by name (Python compares
the single-component paths by their strings). -/
def sortChildren (cs : List (String × FsNode)) : List (String × FsNode) :=
  List.insertionSort (fun x y => strLe x.1 y.1) cs

def childCountNoun (n : Nat) : String := if n = 1 then "file" else "files"

/-- `list_dir_tree` from `get_project_structure` in
`src/tools/file_tools.py`: sorted children, hidden and deny-listed names
skipped, a `- name/ (N files)` line plus recursion for directories, a bare
`- name` line for top-level files only. -/
def listDirTreeF : Nat → FsNode → Nat → List String
  | 0, _, _ => []
  | _ + 1, FsNode.file _, _ => []
  | fuel + 1, FsNode.dir cs, indent =>
    (sortChildren cs).flatMap (fun item =>
      if startsWithS item.1 "." then []
      else if denyListEight.contains item.1 then []
      else
        match item.2 with
        | FsNode.dir cs2 =>
          (indentPad indent ++ "- " ++ item.1 ++ "/ (" ++ toString (nonHiddenCount cs2)
              ++ " " ++ childCountNoun (nonHiddenCount cs2) ++ ")")
            :: listDirTreeF fuel (FsNode.dir cs2) (indent + 1)
        | FsNode.file _ =>
          if indent = 0 then [indentPad indent ++ "- " ++ item.1] else [])

/-- The contribution of one line to `count_files` from
`src/utils/file_utils.py`: skip blank lines; on a `(`-and-` file` line parse
the number between the first `(` and the following ` file`; otherwise count
the line when it does not end in `/` and starts (stripped) with `- `. -/
def countLine (l : List Char) : Int :=
  if (pyStrip l).isEmpty then 0
  else if containsL ['('] l && containsL (" file".data) l then
    let piece1 := (splitOnCharL '(' l).getD 1 []
    let numStr := (splitOnSubF (" file".data) (piece1.length + 1) piece1).getD 0 []
    match pyIntOpt numStr with
    | some k => k
    | none => 0
  else if !((pyStrip l).getLast? == some '/') &&
      !(containsL ['('] l && containsL (" file".data) l) then
    if ("- ".data).isPrefixOf (pyStrip l) then 1 else 0
  else 0

/-- `count_files` from `src/utils/file_utils.py`: strip the whole output,
split on newlines, sum the per-line contributions. -/
def count_files (structure_output : String) : Int :=
  ((splitOnCharL '\n' (pyStrip structure_output.data)).map countLine).sum

/-- The output of `get_project_structure` before the total-files footer:
tree lines joined by newlines, then the project-type line reported by the
external `ProjectTypeAgent` collaborator. -/
def structureText (w : World) : String :=
  joinWith "\n" (listDirTreeF (fsSize w.tree) w.tree 0)
    ++ "\n\n## Estimated project type : " ++ w.lang ++ " / " ++ w.framework ++ "\n\n"

/-- `get_project_structure` from `src/tools/file_tools.py`: the structure
text plus the total-files footer computed by re-parsing that very text. -/
def get_project_structure (w : World) : String :=
  let output := structureText w
  output ++ "\n\n## Total files: " ++ toString (count_files output) ++ "\n\n"

/- ### sanitise_mermaid_syntax -/

/-- The regex word class `\w` (ASCII fragment): letters, digits, underscore. -/
def isWordC (c : Char) : Bool := c.isAlpha || c.isDigit || c = '_'

/-- The identifier class `[A-Za-z0-9_\-]` of the node and arrow patterns. -/
def isIdC (c : Char) : Bool := isWordC c || c = '-'

/-- A `\b` word boundary between two (optional) adjacent characters. -/
def boundaryB (p q : Option Char) : Bool :=
  (match p with | some c => isWordC c | none => false)
    != (match q with | some c => isWordC c | none => false)

def isOpenBr (c : Char) : Bool := c = '[' || c = '{' || c = '('
def isCloseBr (c : Char) : Bool := c = ']' || c = '}' || c = ')'

/-- `sanitise_node_id`: `re.sub(r'[^A-Za-z0-9_]', '_', node_id)`. -/
def sanId (l : List Char) : List Char :=
  l.map (fun c => if isWordC c then c else '_')

def forbiddenLabelChars : List Char := ['(', ')', '@', ':', '<', '>', '&']

/-- `sanitise_label`: `re.sub(r'[()@:<>&]', '', label)`. -/
def sanLabel (l : List Char) : List Char :=
  l.filter (fun c => !(forbiddenLabelChars.contains c))

/-- One match of the node pattern
`([A-Za-z0-9_\-]+)([\[\{\(][^\]\}\)]*[\]\}\)])`: the identifier, the opening
bracket, the label text, the closing bracket.  (The label run excludes only
closing brackets, so e.g. in `A[x (y)]` the match ends at the first `)`.) -/
structure NodeMatch where
  nid : List Char
  ob : Char
  mid : List Char
  cb : Char

/-- Try the node pattern at the start of `s`.  Both starred runs stop at
characters disjoint from what must follow, so the greedy regex match is
deterministic here and no backtracking arises. -/
def nodeTryAt (s : List Char) : Option (NodeMatch × List Char) :=
  let idRun := s.takeWhile isIdC
  if idRun.isEmpty then none
  else
    match s.drop idRun.length with
    | [] => none
    | ob :: rest1 =>
      if isOpenBr ob then
        let mid := rest1.takeWhile (fun c => !(isCloseBr c))
        match rest1.drop mid.length with
        | [] => none
        | cb :: rest2 => if isCloseBr cb then some (⟨idRun, ob, mid, cb⟩, rest2) else none
      else none

/-- `node_pattern.finditer(line)`: leftmost non-overlapping matches, scanning
one character forward after a failed position. -/
def nodeScanF : Nat → List Char → List NodeMatch
  | 0, _ => []
  | _ + 1, [] => []
  | f + 1, c :: t =>
    match nodeTryAt (c :: t) with
    | some (m, rest) => m :: nodeScanF f rest
    | none => nodeScanF f t

/-- The arrow tail `--?>+` of the arrow pattern: one or two dashes, then a
greedy run of at least one `>`; returns the rest after the match. -/
def arrowTail : List Char → Option (List Char)
  | '-' :: t =>
    match t with
    | '-' :: t2 => if t2.head? = some '>' then some (t2.dropWhile (fun c => c = '>')) else none
    | _ => if t.head? = some '>' then some (t.dropWhile (fun c => c = '>')) else none
  | _ => none

/-- Backtracking over the greedy group of
`\b([A-Za-z0-9_\-]+)\b\s*--?>+`: try the group length `k`, longest first;
for each, require the trailing `\b`, then the arrow after the whitespace run
(`\s*` can only succeed having consumed the whole run, since the arrow needs
`-` next).  Returns the captured identifier and the rest after the match. -/
def arrowTryLen (s : List Char) : Nat → Option (List Char × List Char)
  | 0 => none
  | k + 1 =>
    let nid := s.take (k + 1)
    let after := s.drop (k + 1)
    if boundaryB nid.getLast? after.head? then
      match arrowTail (after.dropWhile isWs) with
      | some rest => some (nid, rest)
      | none => arrowTryLen s k
    else arrowTryLen s k

/-- `arrow_pattern.finditer(line)`, carrying the previous character for the
leading `\b`; a successful match always ends in `>`, so scanning resumes
with `>` as the previous character. -/
def arrowScanF : Nat → Option Char → List Char → List (List Char)
  | 0, _, _ => []
  | _ + 1, _, [] => []
  | f + 1, prev, c :: t =>
    if boundaryB prev (some c) then
      match arrowTryLen (c :: t) ((c :: t).takeWhile isIdC).length with
      | some (nid, rest) => nid :: arrowScanF f (some '>') rest
      | none => arrowScanF f (some c) t
    else arrowScanF f (some c) t

/-- `re.sub(r'\b' + re.escape(node_id) + r'\b', clean_id, line, count=1)`:
replace the first whole-word occurrence of the literal identifier. -/
def subWordFirst (prev : Option Char) (nid clean : List Char) : List Char → List Char
  | [] => []
  | c :: t =>
    if nid.isPrefixOf (c :: t) && boundaryB prev (some c)
        && boundaryB nid.getLast? (((c :: t).drop nid.length).head?) then
      clean ++ (c :: t).drop nid.length
    else c :: subWordFirst (some c) nid clean t

/-- The first pass of `process_mermaid_block` over one line: for every node
match found on the entering line, replace (first occurrence, in the line as
mutated so far) the matched `id[label]` text by its sanitised form. -/
def nodePassLine (l : List Char) : List Char :=
  (nodeScanF (l.length + 1) l).foldl
    (fun cur m =>
      replaceFirstL (m.nid ++ m.ob :: m.mid ++ [m.cb])
        (sanId m.nid ++ m.ob :: sanLabel m.mid ++ [m.cb]) cur)
    l

/-- The second pass over one line: for every arrow-source identifier found on
the entering line whose sanitised form differs, rewrite the first whole-word
occurrence in the line as mutated so far. -/
def arrowPassLine (l : List Char) : List Char :=
  (arrowScanF (l.length + 1) none l).foldl
    (fun cur nid =>
      let clean := sanId nid
      if nid = clean then cur else subWordFirst none nid clean cur)
    l

/-- Comment, flowchart, subgraph and bare `end` lines are passed through. -/
def lineIsStructural (l : List Char) : Bool :=
  ("%%".data).isPrefixOf (l.dropWhile isWs)
    || ("flowchart".data).isPrefixOf (l.dropWhile isWs)
    || ("subgraph".data).isPrefixOf (l.dropWhile isWs)
    || pyStrip l = "end".data

/-- One line of `process_mermaid_block`. -/
def processLine (l : List Char) : List Char :=
  if lineIsStructural l then l else arrowPassLine (nodePassLine l)

/-- `process_mermaid_block`: split on newlines, process each line, rejoin. -/
def processBlock (b : List Char) : List Char :=
  List.intercalate ['\n'] ((splitOnCharL '\n' b).map processLine)

def fenceChars : List Char := "```mermaid".data

/-- Find the lazy `(.*?)` body up to the first closing triple backtick;
returns the body and the rest after the backticks. -/
def findCloseL : List Char → Option (List Char × List Char)
  | [] => none
  | c :: t =>
    if ("```".data).isPrefixOf (c :: t) then some ([], (c :: t).drop 3)
    else
      match findCloseL t with
      | some (b, r) => some (c :: b, r)
      | none => none

/-- `re.finditer(r'(```mermaid(?:js)?\n)(.*?)(```)', text, re.DOTALL)`:
header (greedy optional `js`, then the newline), lazy body, closing
backticks; non-overlapping, advancing one character past failed positions. -/
def blockScanF : Nat → List Char → List (List Char × List Char)
  | 0, _ => []
  | _ + 1, [] => []
  | f + 1, c :: t =>
    if fenceChars.isPrefixOf (c :: t) then
      let after := (c :: t).drop fenceChars.length
      let hdrRest : Option (List Char × List Char) :=
        if ("js\n".data).isPrefixOf after then
          some (fenceChars ++ "js\n".data, after.drop 3)
        else if after.head? = some '\n' then
          some (fenceChars ++ ['\n'], after.drop 1)
        else none
      match hdrRest with
      | some (hdr, body0) =>
        match findCloseL body0 with
        | some (body, rest) => (hdr, body) :: blockScanF f rest
        | none => blockScanF f t
      | none => blockScanF f t
    else blockScanF f t

/-- `sanitise_mermaid_syntax` from `src/utils/file_utils.py`: find every
mermaid block, process it, and substitute the processed block for every
occurrence of the original block text (`str.replace` with no count). -/
def sanitiseMermaid (text : String) : String :=
  let ms := blockScanF (text.data.length + 1) text.data
  String.mk (ms.foldl
    (fun acc hb =>
      let full := hb.1 ++ hb.2 ++ "```".data
      let repl := hb.1 ++ processBlock hb.2 ++ "```".data
      replaceAllF full repl (acc.length + 1) acc)
    text.data)

/- ### General helper lemmas -/

theorem strDataAppend (a b : String) : (a ++ b).data = a.data ++ b.data := rfl

theorem blockScanF_nil_of_no_fence :
    ∀ (fuel : Nat) (l : List Char), containsL fenceChars l = false →
      blockScanF fuel l = []
  | 0, _, _ => rfl
  | _ + 1, [], _ => rfl
  | fuel + 1, c :: t, h => by
    simp only [containsL, Bool.or_eq_false_iff] at h
    simp only [blockScanF, h.1, Bool.false_eq_true, if_false]
    exact blockScanF_nil_of_no_fence fuel t h.2

/-- A text with no mermaid fence is returned unchanged (shared helper). -/
theorem sanitiseNoFenceId (x : String) (h : containsL fenceChars x.data = false) :
    sanitiseMermaid x = x := by
  unfold sanitiseMermaid
  rw [blockScanF_nil_of_no_fence _ _ h]
  rfl

/- ### The worlds of the concrete evaluations -/

/-- cwd `/work/proj`, with `/work/proj/link` a symlink to the sibling
directory `/work/proj2`. -/
def wSymlink : World :=
  ⟨["work", "proj"], [(["work", "proj", "link"], ["work", "proj2"])], FsNode.dir [], "", ""⟩

/-- cwd `/home` containing one two-line file `notes.txt`. -/
def wNotes : World :=
  ⟨["home"], [], FsNode.dir [("notes.txt", FsNode.file "alpha\nbeta\n")], "", ""⟩

/-- cwd `/home` containing a six-line file `f.txt` whose fourth line is the
only one containing `delta`. -/
def wSix : World :=
  ⟨["home"], [], FsNode.dir [("f.txt", FsNode.file "a\nb\nc\ndelta\ne\nf\n")], "", ""⟩

/-- cwd `/home` containing a non-empty `README.md`. -/
def wReadme : World :=
  ⟨["home"], [], FsNode.dir [("README.md", FsNode.file "the real readme text")], "", ""⟩

/- ### The claims -/

/-- C1: the spec requires the guard to reject every relative path whose
symlink-resolved form is not a descendant of the resolved working directory.
The source compares `str(resolved)` against `str(cwd)` with a string-prefix
test, so a symlink inside the working directory pointing at a sibling
directory whose name extends the cwd name (`/work/proj2` vs `/work/proj`)
resolves outside the cwd yet is accepted: `filename_unsafe` returns `False`
although the resolved path is not a descendant.  This contradicts the
source's own comment ("Disallow paths that escape the current working
directory"), so the code, not the claim, is wrong. -/
theorem C1_guard_misses_symlink_sibling_escape :
    resolvedInsideCwd wSymlink "link" = false ∧
      filenameUnsafe wSymlink "link" = false := by
  constructor <;> rfl

/-- C2: the tools do return descriptive strings for unsafe and nonexistent
inputs, but a malformed regex is handed to `re.search` unvalidated and only
`FileNotFoundError` is caught, so on an existing non-empty file the pattern
`"("` raises `re.error` out of `grep_file` instead of yielding a result
string — the thrown fault the claim rules out. -/
theorem C2_grep_malformed_pattern_raises :
    reMalformed "(" = true ∧
      grep_file wNotes "notes.txt" "(" 0 0 =
        Except.error "re.error: missing ), unterminated subpattern" ∧
      grep_file wNotes "../escape" "(" 0 0 = Except.ok "Forbidden" ∧
      grep_file wNotes "missing.txt" "(" 0 0 =
        Except.ok ("Not a valid file: " ++ "missing.txt") ∧
      list_files wNotes "../escape" true = "Forbidden" ∧
      list_files wNotes "nodir" false = "Not a valid directory: " ++ "nodir" ∧
      cat_file wNotes "../escape" = "Forbidden" ∧
      cat_file wNotes "missing.txt" = "Not a valid file: " ++ "missing.txt" := by
  refine ⟨rfl, rfl, rfl, rfl, rfl, rfl, rfl, rfl⟩

/-- C4: on the node definition `User-Auth[Check (valid)]` the sanitizer
rewrites the identifier to `User_Auth` as claimed, but the bracket run of
its node regex stops at the first closing bracket, so the matched label part
is `[Check (valid)` and the trailing `)]` of the original text survives: the
output label text is `Check valid)`, not `Check valid`.  This leaves a
parenthesis in the label, contradicting the function's own docstring
("node labels do not contain forbidden characters (parentheses ...)"), so
the code, not the claim, is wrong. -/
theorem C4_sanitiser_leaves_paren_residue :
    sanitiseMermaid "```mermaid\nUser-Auth[Check (valid)]\n```"
        = "```mermaid\nUser_Auth[Check valid)]\n```" ∧
      sanitiseMermaid "```mermaid\nUser-Auth[Check (valid)]\n```"
        ≠ "```mermaid\nUser_Auth[Check valid]\n```" := by
  exact ⟨rfl, by decide⟩

/-- C7: whenever the guard passes and the path names an existing regular
file, a path whose lowercase form contains `readme` is answered with the
fixed stub, never with the file's contents. -/
theorem C7_readme_stub (w : World) (p : String)
    (hsafe : filenameUnsafe w p = false)
    (hvalid : is_a_valid_file w p = true)
    (hreadme : containsL ("readme".data) ((pyLower p).data) = true) :
    cat_file w p = readmeStub := by
  simp [cat_file, hsafe, hvalid, hreadme]

theorem C7_readme_stub_witness :
    filenameUnsafe wReadme "README.md" = false ∧
      is_a_valid_file wReadme "README.md" = true ∧
      containsL ("readme".data) ((pyLower "README.md").data) = true ∧
      cat_file wReadme "README.md" = readmeStub :=
  ⟨by decide, by decide, by decide,
    C7_readme_stub wReadme "README.md" (by decide) (by decide) (by decide)⟩

/-- C10: in `cat_file` the guard and the existence check take precedence
over the README stub rule, and the stub can only ever be returned when the
guard passed and the path names an existing regular file. -/
theorem C10_cat_file_precedence :
    (∀ (w : World) (p : String), filenameUnsafe w p = true →
        cat_file w p = "Forbidden") ∧
      (∀ (w : World) (p : String), filenameUnsafe w p = false →
        is_a_valid_file w p = false →
        containsL ("readme".data) ((pyLower p).data) = true →
        cat_file w p = "Not a valid file: " ++ p) ∧
      (∀ (w : World) (p : String), cat_file w p = readmeStub →
        filenameUnsafe w p = false ∧ is_a_valid_file w p = true) := by
  refine ⟨fun w p h => by simp [cat_file, h], fun w p h1 h2 _ => by simp [cat_file, h1, h2],
    fun w p h => ?_⟩
  by_cases h1 : filenameUnsafe w p = true
  · rw [cat_file, if_pos h1] at h
    exact absurd h (by decide)
  · rw [Bool.not_eq_true] at h1
    by_cases h2 : is_a_valid_file w p = true
    · exact ⟨h1, h2⟩
    · rw [Bool.not_eq_true] at h2
      rw [cat_file, if_neg (by simp [h1]), if_pos (by simp [h2])] at h
      have h3 := congrArg String.data h
      rw [strDataAppend] at h3
      simp [readmeStub] at h3

theorem C10_cat_file_precedence_witness :
    cat_file wReadme "../README.md" = "Forbidden" ∧
      cat_file wReadme "missing-readme.md" = "Not a valid file: " ++ "missing-readme.md" ∧
      (filenameUnsafe wReadme "README.md" = false ∧
        is_a_valid_file wReadme "README.md" = true) :=
  ⟨C10_cat_file_precedence.1 wReadme "../README.md" (by decide),
    C10_cat_file_precedence.2.1 wReadme "missing-readme.md" (by decide) (by decide) (by decide),
    C10_cat_file_precedence.2.2 wReadme "README.md" (by decide)⟩

/-- C9: the sanitizer leaves everything outside fenced mermaid blocks
unchanged — a text with no mermaid fence is returned verbatim — and inside a
block every comment (`%%`), `flowchart`, `subgraph` and bare `end` line is
passed through character-for-character. -/
theorem C9_sanitiser_frame :
    (∀ x : String, containsL fenceChars x.data = false → sanitiseMermaid x = x) ∧
      (∀ l : List Char, lineIsStructural l = true → processLine l = l) :=
  ⟨sanitiseNoFenceId, fun l h => by simp [processLine, h]⟩

theorem C9_sanitiser_frame_witness :
    sanitiseMermaid "plain prose, no diagrams" = "plain prose, no diagrams" ∧
      processLine ("  %% note (a:b)".data) = "  %% note (a:b)".data :=
  ⟨C9_sanitiser_frame.1 "plain prose, no diagrams" (by decide),
    C9_sanitiser_frame.2 ("  %% note (a:b)".data) (by decide)⟩

/-- C5: the sanitizer is not idempotent.  In the line `A-B x A-B --> y` the
arrow pass captures the arrow source `A-B`, but its `re.sub(..., count=1)`
rewrites the *first* whole-word occurrence of `A-B` — the one without an
arrow — so one application yields `A_B x A-B --> y` and a second application
rewrites the remaining `A-B` as well. -/
theorem C5_sanitiser_not_idempotent :
    sanitiseMermaid (sanitiseMermaid "```mermaid\nA-B x A-B --> y\n```")
      ≠ sanitiseMermaid "```mermaid\nA-B x A-B --> y\n```" := by
  decide

/-- C5 (amended): `sanitize(sanitize(x)) = sanitize(x)` fails for diagram
text in general (see the counterexample); it holds for every text containing
no mermaid fence, on which the sanitizer is the identity. -/
theorem C5_amended_idempotent_on_fence_free (x : String)
    (h : containsL fenceChars x.data = false) :
    sanitiseMermaid (sanitiseMermaid x) = sanitiseMermaid x := by
  rw [sanitiseNoFenceId x h, sanitiseNoFenceId x h]

theorem C5_amended_idempotent_on_fence_free_witness :
    containsL fenceChars ("graph text without a fence".data) = false ∧
      sanitiseMermaid (sanitiseMermaid "graph text without a fence")
        = sanitiseMermaid "graph text without a fence" :=
  ⟨by decide, C5_amended_idempotent_on_fence_free "graph text without a fence" (by decide)⟩

theorem keepPath_all_good (parts : List String) (h : keepPath parts = true) :
    parts.all (fun part => !(startsWithS part ".") && !(denyListFive.contains part)) = true := by
  unfold keepPath at h
  rw [Bool.and_eq_true, Bool.not_eq_true', Bool.not_eq_true', List.any_eq_false,
    List.any_eq_false] at h
  rw [List.all_eq_true]
  intro part hp
  have h1 := h.1 part hp
  have h2 := h.2 part hp
  rw [Bool.not_eq_true] at h1 h2
  rw [h1, h2]
  rfl

/-- C6: `list_files(directory, recursive=True)` returns the joined
`recursiveListing` sequence, every path that enumeration keeps has no hidden
component and no component on the deny list
(`node_modules`, `vendor`, `dist`, `build`, `public`) — the `directory`
argument's own components included — and the returned sequence is sorted in
code-point lexicographic order and duplicate-free. -/
theorem C6_recursive_listing_clean_sorted_nodup (w : World) (directory : String) :
    (filenameUnsafe w directory = false → is_a_valid_directory w directory = true →
        list_files w directory true = joinWith "\n" (recursiveListing w directory)) ∧
      ((rglobFiltered w directory).all (fun pr =>
        pr.1.all (fun part => !(startsWithS part ".") && !(denyListFive.contains part)))) = true ∧
      List.Sorted strLe (recursiveListing w directory) ∧
      (recursiveListing w directory).Nodup := by
  refine ⟨fun h1 h2 => by simp [list_files, h1, h2], ?_, ?_, ?_⟩
  · unfold rglobFiltered
    cases lookupPath w directory with
    | none => rfl
    | some t =>
      rw [List.all_eq_true]
      intro pr hpr
      exact keepPath_all_good pr.1 (List.mem_filter.mp hpr).2
  · exact List.sorted_insertionSort strLe _
  · exact ((List.perm_insertionSort strLe _).nodup_iff).mpr (List.nodup_dedup _)

theorem C6_recursive_listing_clean_sorted_nodup_witness :
    list_files wSix "." true = joinWith "\n" (recursiveListing wSix ".") ∧
      ((rglobFiltered wSix ".").all (fun pr =>
        pr.1.all (fun part => !(startsWithS part ".") && !(denyListFive.contains part)))) = true ∧
      List.Sorted strLe (recursiveListing wSix ".") ∧
      (recursiveListing wSix ".").Nodup :=
  ⟨(C6_recursive_listing_clean_sorted_nodup wSix ".").1 (by decide) (by decide),
    (C6_recursive_listing_clean_sorted_nodup wSix ".").2.1,
    (C6_recursive_listing_clean_sorted_nodup wSix ".").2.2.1,
    (C6_recursive_listing_clean_sorted_nodup wSix ".").2.2.2⟩

theorem grepLoop_nil (pat : String) (lines : List String) (b a : Int) :
    grepLoop pat lines b a [] = [] := rfl

theorem grepLoop_cons (pat : String) (lines : List String) (b a : Int)
    (i : Nat) (t : List Nat) :
    grepLoop pat lines b a (i :: t) =
      (if reSearchBool pat (lines.getD i "") = true then groupAt lines b a i else [])
        ++ grepLoop pat lines b a t := rfl

theorem grepLoop_append (pat : String) (lines : List String) (b a : Int) :
    ∀ l1 l2 : List Nat, grepLoop pat lines b a (l1 ++ l2)
      = grepLoop pat lines b a l1 ++ grepLoop pat lines b a l2
  | [], l2 => by rw [List.nil_append, grepLoop_nil, List.nil_append]
  | i :: t, l2 => by
    rw [List.cons_append, grepLoop_cons, grepLoop_cons,
      grepLoop_append pat lines b a t l2, List.append_assoc]

theorem grepLoop_nil_of_no_match (pat : String) (lines : List String) (b a : Int) :
    ∀ l : List Nat, (∀ j ∈ l, reSearchBool pat (lines.getD j "") = false) →
      grepLoop pat lines b a l = []
  | [], _ => rfl
  | i :: t, h => by
    have h1 := h i (List.mem_cons_self i t)
    have h2 := grepLoop_nil_of_no_match pat lines b a t
      (fun j hj => h j (List.mem_cons_of_mem i hj))
    rw [grepLoop_cons, h1, h2]
    simp

/-- When exactly one 0-based index below `n` matches, the whole grep loop
emits exactly that index's context group. -/
theorem grepLoop_range_single (pat : String) (lines : List String) (b a : Int)
    (i : Nat) :
    ∀ n : Nat, i < n →
      (∀ j, j < n → (reSearchBool pat (lines.getD j "") = true ↔ j = i)) →
      grepLoop pat lines b a (List.range n) = groupAt lines b a i := by
  intro n
  induction n with
  | zero => omega
  | succ n ih =>
    intro hi h
    rw [List.range_succ, grepLoop_append]
    by_cases hin : i = n
    · subst hin
      rw [grepLoop_nil_of_no_match pat lines b a (List.range i)
        (fun j hj => Bool.eq_false_iff.mpr (fun hc => by
          have hj' : j < i := List.mem_range.mp hj
          have := (h j (by omega)).mp hc
          omega))]
      have hm : reSearchBool pat (lines.getD i "") = true := (h i hi).mpr rfl
      rw [List.nil_append, grepLoop_cons, hm, grepLoop_nil]
      simp
    · have hi' : i < n := by omega
      rw [ih hi' (fun j hj => h j (by omega))]
      have hn : reSearchBool pat (lines.getD n "") = false :=
        Bool.eq_false_iff.mpr (fun hc => absurd ((h n (by omega)).mp hc) (by omega))
      rw [grepLoop_cons, hn, grepLoop_nil]
      simp

/-- `groupAt` at `include_before_lines = 2, include_after_lines = 1` for a
mid-file match with at least two lines before and one after: two leading
context lines, the match, one trailing context line, and the separator
exactly when the window ends before the last line. -/
theorem groupAt_two_one (lines : List String) (i : Nat)
    (h2 : 2 ≤ i) (hn : i + 1 < lines.length) :
    groupAt lines 2 1 i =
      [lineEntry lines (i - 2), lineEntry lines (i - 1), lineEntry lines i,
        lineEntry lines (i + 1)]
        ++ (if i + 2 < lines.length then ["---"] else []) := by
  have hs : (max 0 ((i : Int) - 2)).toNat = i - 2 := by omega
  have he : (min ((lines.length : Int)) ((i : Int) + 1 + 1)).toNat = i + 2 := by omega
  have hsep : (min ((lines.length : Int)) ((i : Int) + 1 + 1) < (lines.length : Int))
      ↔ (i + 2 < lines.length) := by omega
  simp only [groupAt, hs, he, hsep]
  have h1 : i - (i - 2) = 2 := by omega
  have h3 : i + 2 - (i + 1) = 1 := by omega
  rw [h1, h3]
  have h4 : List.range' (i - 2) 2 = [i - 2, i - 1] := by
    have : i - 2 + 1 = i - 1 := by omega
    simp [List.range', this]
  have h5 : List.range' (i + 1) 1 = [i + 1] := by simp [List.range']
  rw [h4, h5]
  simp

/-- C3 (amended): for a file in which exactly one line matches, with at
least 2 lines before it and at least 1 after, `grep_file` with
`include_before_lines = 2, include_after_lines = 1` returns exactly the two
preceding lines, the matching line and the following line, each tagged with
its 1-based number — and appends the `---` separator exactly when further
file lines remain beyond the context window (the source emits it whenever
`end_idx < len(lines)`), not only when another match group follows. -/
theorem C3_amended_single_match_context (w : World) (fp pat content : String)
    (lines : List String) (i : Nat)
    (hsafe : filenameUnsafe w fp = false)
    (hfile : lookupPath w fp = some (FsNode.file content))
    (hlines : lines = (readLinesL content.data).map String.mk)
    (hpat : reMalformed pat = false)
    (hone : ∀ j, j < lines.length → (reSearchBool pat (lines.getD j "") = true ↔ j = i))
    (hbefore : 2 ≤ i) (hafter : i + 1 < lines.length) :
    grep_file w fp pat 2 1 =
      Except.ok (joinWith "\n"
        ([lineEntry lines (i - 2), lineEntry lines (i - 1), lineEntry lines i,
          lineEntry lines (i + 1)]
          ++ (if i + 2 < lines.length then ["---"] else []))) := by
  have hv : is_a_valid_file w fp = true := by
    unfold is_a_valid_file
    rw [hfile]
  unfold grep_file
  rw [hsafe]
  simp only [Bool.false_eq_true, if_false, hv, Bool.not_true, hfile, hpat,
    Bool.false_and, ← hlines]
  rw [if_neg (by decide : ¬((2 : Int) = 0)), if_neg (by decide : ¬((1 : Int) = 0))]
  rw [grepLoop_range_single pat lines 2 1 i lines.length (by omega) hone,
    groupAt_two_one lines i hbefore hafter]

def linesSix : List String := (readLinesL ("a\nb\nc\ndelta\ne\nf\n").data).map String.mk

theorem C3_amended_single_match_context_witness :
    grep_file wSix "f.txt" "delta" 2 1 =
      Except.ok (joinWith "\n"
        ([lineEntry linesSix 1, lineEntry linesSix 2, lineEntry linesSix 3,
          lineEntry linesSix 4]
          ++ (if 5 < linesSix.length then ["---"] else []))) :=
  C3_amended_single_match_context wSix "f.txt" "delta" "a\nb\nc\ndelta\ne\nf\n"
    linesSix 3 (by decide) rfl rfl (by decide) (by decide) (by decide) (by decide)

/-- C3 (counterexample): on a six-line file whose only match is line 4
(1-based), `grep_file` with context 2/1 appends a `---` separator after the
sole match group — two file lines remain beyond the window — so the output
is not the claimed four context-tagged lines alone. -/
theorem C3_separator_after_sole_match :
    grep_file wSix "f.txt" "delta" 2 1 =
        Except.ok "Line: 2 - b\n\nLine: 3 - c\n\nLine: 4 - delta\n\nLine: 5 - e\n\n---" ∧
      "Line: 2 - b\n\nLine: 3 - c\n\nLine: 4 - delta\n\nLine: 5 - e\n\n---"
        ≠ "Line: 2 - b\n\nLine: 3 - c\n\nLine: 4 - delta\n\nLine: 5 - e\n" :=
  ⟨rfl, by decide⟩

/- ### Helper lemmas for the summarizer claim -/

theorem mkData (l : List Char) : (String.mk l).data = l := rfl

theorem dropWhile_eq_self_append (p : Char → Bool) (l m : List Char)
    (h : l.dropWhile p = l) (hne : l ≠ []) : (l ++ m).dropWhile p = l ++ m := by
  cases l with
  | nil => exact absurd rfl hne
  | cons x t =>
    have hx : p x = false := by
      by_cases hp : p x = true
      · rw [List.dropWhile_cons, if_pos hp] at h
        have hlen := congrArg List.length h
        have h2 := (List.dropWhile_sublist p (l := t)).length_le
        simp at hlen
        omega
      · exact Bool.eq_false_iff.mpr hp
    simp [List.dropWhile_cons, hx]

theorem pyStrip_eq_self (l : List Char) (h1 : l.dropWhile isWs = l)
    (h2 : l.reverse.dropWhile isWs = l.reverse) : pyStrip l = l := by
  unfold pyStrip
  rw [h1, h2, List.reverse_reverse]

theorem containsL_one_cons (c x : Char) (t : List Char) :
    containsL [c] (x :: t) = ((c == x) || containsL [c] t) := by
  simp [containsL, List.isPrefixOf]

theorem containsL_nil_left (c : Char) : containsL [c] [] = false := rfl

theorem containsL_one_append (c : Char) : ∀ l₁ l₂ : List Char,
    containsL [c] (l₁ ++ l₂) = (containsL [c] l₁ || containsL [c] l₂)
  | [], l₂ => by simp [containsL_nil_left]
  | x :: t, l₂ => by
    rw [List.cons_append, containsL_one_cons, containsL_one_cons,
      containsL_one_append c t l₂, Bool.or_assoc]

theorem containsL_cons_of (sub : List Char) (x : Char) (t : List Char)
    (h : containsL sub t = true) : containsL sub (x :: t) = true := by
  simp [containsL, h]

theorem containsL_append_right (sub : List Char) : ∀ l₁ l₂ : List Char,
    containsL sub l₂ = true → containsL sub (l₁ ++ l₂) = true
  | [], _, h => h
  | x :: t, l₂, h => by
    rw [List.cons_append]
    exact containsL_cons_of sub x _ (containsL_append_right sub t l₂ h)

theorem not_mem_of_containsL_one (c : Char) : ∀ l : List Char,
    containsL [c] l = false → c ∉ l
  | [], _ => List.not_mem_nil c
  | x :: t, h => by
    rw [containsL_one_cons, Bool.or_eq_false_iff] at h
    have h1 : c ≠ x := by simpa using h.1
    have h2 := not_mem_of_containsL_one c t h.2
    simp [h1, h2]

theorem splitOnCharL_no_sep (c : Char) : ∀ l : List Char,
    containsL [c] l = false → splitOnCharL c l = [l]
  | [], _ => rfl
  | x :: t, h => by
    rw [containsL_one_cons, Bool.or_eq_false_iff] at h
    have h1 : ¬ x = c := fun he => by simp [he] at h
    rw [splitOnCharL, if_neg h1, splitOnCharL_no_sep c t h.2]

theorem splitOnCharL_append_sep (c : Char) : ∀ l₁ l₂ : List Char,
    containsL [c] l₁ = false →
    splitOnCharL c (l₁ ++ c :: l₂) = l₁ :: splitOnCharL c l₂
  | [], l₂, _ => by
    rw [List.nil_append, splitOnCharL, if_pos rfl]
  | x :: t, l₂, h => by
    rw [containsL_one_cons, Bool.or_eq_false_iff] at h
    have h1 : ¬ x = c := fun he => by simp [he] at h
    rw [List.cons_append, splitOnCharL, if_neg h1,
      splitOnCharL_append_sep c t l₂ h.2]

theorem pyStrip_cons_head (c : Char) (t : List Char) (h : isWs c = false) :
    ∃ m, pyStrip (c :: t) = c :: m := by
  have hL : (c :: t).dropWhile isWs = c :: t := by
    rw [List.dropWhile_cons, if_neg (by simp [h])]
  have hrev : (c :: t).reverse = t.reverse ++ [c] := by simp
  have hsuf : (t.reverse ++ [c]).dropWhile isWs <:+ t.reverse ++ [c] :=
    List.dropWhile_suffix isWs
  have hne : (t.reverse ++ [c]).dropWhile isWs ≠ [] := by
    rw [Ne, List.dropWhile_eq_nil_iff]
    intro hall
    have := hall c (by simp)
    simp [h] at this
  obtain ⟨pre, hpre⟩ := hsuf
  have hlast : ((t.reverse ++ [c]).dropWhile isWs).getLast? = some c := by
    rw [← List.getLast?_append_of_ne_nil pre hne, hpre]
    simp
  have hh : ((t.reverse ++ [c]).dropWhile isWs).reverse.head? = some c := by
    rw [List.head?_reverse]
    exact hlast
  unfold pyStrip
  rw [hL, hrev]
  cases he : ((t.reverse ++ [c]).dropWhile isWs).reverse with
  | nil => rw [he] at hh; simp at hh
  | cons y m =>
    rw [he] at hh
    simp at hh
    exact ⟨m, by rw [hh]⟩

theorem pyStrip_isEmpty_false (c : Char) (t : List Char) (h : isWs c = false) :
    (pyStrip (c :: t)).isEmpty = false := by
  obtain ⟨m, hm⟩ := pyStrip_cons_head c t h
  rw [hm]
  rfl

/-- A tree line `- name`: `count_files` counts it as one file, given an
ordinary name (nonempty, no `(`, no `/`, no trailing whitespace). -/
theorem countLine_bare (X : List Char) (hne : X ≠ [])
    (hp : containsL ['('] X = false) (hsl : containsL ['/'] X = false)
    (htr : X.reverse.dropWhile isWs = X.reverse) :
    countLine ('-' :: ' ' :: X) = 1 := by
  have hstrip : pyStrip ('-' :: ' ' :: X) = '-' :: ' ' :: X := by
    apply pyStrip_eq_self
    · rw [List.dropWhile_cons, if_neg (by decide)]
    · have hrev : ('-' :: ' ' :: X).reverse = X.reverse ++ [' ', '-'] := by simp
      rw [hrev]
      exact dropWhile_eq_self_append isWs _ _ htr (by simpa using hne)
  have hparen : (containsL ['('] ('-' :: ' ' :: X) &&
      containsL ((" file").data) ('-' :: ' ' :: X)) = false := by
    rw [containsL_one_cons, containsL_one_cons, hp]
    rfl
  have hlast : (('-' :: ' ' :: X).getLast? == some '/') = false := by
    have h2 : ('-' :: ' ' :: X).getLast? = X.getLast? := by
      have h3 : ('-' :: ' ' :: X) = ['-', ' '] ++ X := rfl
      rw [h3, List.getLast?_append_of_ne_nil _ hne]
    rw [h2, List.getLast?_eq_getLast_of_ne_nil hne]
    have hmem := List.getLast_mem hne
    have hney : X.getLast hne ≠ '/' :=
      fun heq => (not_mem_of_containsL_one '/' X hsl) (heq ▸ hmem)
    simp [hney]
  have hpref : (("- ").data).isPrefixOf ('-' :: ' ' :: X) = true := by
    have hg : ("- ").data = ['-', ' '] := rfl
    rw [hg]
    simp [List.isPrefixOf]
  unfold countLine
  rw [hstrip, hparen]
  simp only [List.isEmpty_cons, Bool.false_eq_true, if_false, hlast, Bool.not_false,
    Bool.and_true, if_true, hpref]

/-- A tree line `- name/ (2 files)`: `count_files` parses and adds the 2,
given a name without `(`. -/
theorem countLine_dir (X : List Char) (hp : containsL ['('] X = false) :
    countLine ('-' :: ' ' :: (X ++ ("/ (2 files)").data)) = 2 := by
  have hlit : ("/ (2 files)").data = ("/ ").data ++ '(' :: ("2 files)").data := rfl
  have hsh : ('-' :: ' ' :: (X ++ ("/ (2 files)").data))
      = ('-' :: ' ' :: (X ++ ("/ ").data)) ++ '(' :: ("2 files)").data := by
    rw [hlit]
    simp
  have hpre : containsL ['('] ('-' :: ' ' :: (X ++ ("/ ").data)) = false := by
    rw [containsL_one_cons, containsL_one_cons, containsL_one_append, hp]
    rfl
  have hsplit : (splitOnCharL '(' ('-' :: ' ' :: (X ++ ("/ (2 files)").data))).getD 1 []
      = ("2 files)").data := by
    rw [hsh, splitOnCharL_append_sep '(' _ _ hpre,
      splitOnCharL_no_sep '(' _ (by decide)]
    rfl
  have hc1 : containsL ['('] ('-' :: ' ' :: (X ++ ("/ (2 files)").data)) = true := by
    rw [containsL_one_cons, containsL_one_cons, containsL_one_append]
    have hg : containsL ['('] (("/ (2 files)").data) = true := by decide
    rw [hg]
    simp
  have hc2 : containsL ((" file").data) ('-' :: ' ' :: (X ++ ("/ (2 files)").data)) = true := by
    apply containsL_cons_of
    apply containsL_cons_of
    exact containsL_append_right _ X _ (by decide)
  have hne1 : (pyStrip ('-' :: ' ' :: (X ++ ("/ (2 files)").data))).isEmpty = false :=
    pyStrip_isEmpty_false '-' _ (by decide)
  unfold countLine
  rw [hne1, hc1, hc2]
  simp only [Bool.false_eq_true, if_false, Bool.and_self, if_true]
  rw [hsplit]
  rfl

/-- The project-type line contributes nothing to `count_files` when neither
the language nor the framework string contains `(`. -/
theorem countLine_type (L F : List Char) (hLp : containsL ['('] L = false)
    (hFp : containsL ['('] F = false) :
    countLine ((("## Estimated project type : ").data ++ (L ++ ((" / ").data ++ F)))) = 0 := by
  have hexp : ("## Estimated project type : ").data
      = '#' :: ("# Estimated project type : ").data := rfl
  have hc1 : (containsL ['('] (("## Estimated project type : ").data ++ (L ++ ((" / ").data ++ F)))
      && containsL ((" file").data)
        (("## Estimated project type : ").data ++ (L ++ ((" / ").data ++ F)))) = false := by
    rw [containsL_one_append, containsL_one_append, containsL_one_append, hLp, hFp]
    rfl
  have hcons : (("## Estimated project type : ").data ++ (L ++ ((" / ").data ++ F)))
      = '#' :: (("# Estimated project type : ").data ++ (L ++ ((" / ").data ++ F))) := by
    rw [hexp]
    rfl
  obtain ⟨m, hm⟩ := pyStrip_cons_head '#'
    (("# Estimated project type : ").data ++ (L ++ ((" / ").data ++ F))) (by decide)
  have hne1 : (pyStrip (("## Estimated project type : ").data
      ++ (L ++ ((" / ").data ++ F)))).isEmpty = false := by
    rw [hcons]
    exact pyStrip_isEmpty_false '#' _ (by decide)
  have hpref : (("- ").data).isPrefixOf
      (pyStrip (("## Estimated project type : ").data ++ (L ++ ((" / ").data ++ F)))) = false := by
    rw [hcons, hm]
    rfl
  unfold countLine
  rw [hne1, hc1, hpref]
  simp only [Bool.false_eq_true, if_false, Bool.not_false, Bool.and_true, ite_self]

theorem dropWhile_append_of_all (p : Char → Bool) : ∀ s m : List Char,
    s.all p = true → (s ++ m).dropWhile p = m.dropWhile p
  | [], m, _ => rfl
  | x :: t, m, h => by
    rw [List.all_cons, Bool.and_eq_true] at h
    rw [List.cons_append, List.dropWhile_cons, if_pos h.1]
    exact dropWhile_append_of_all p t m h.2

theorem pyStrip_append_ws (M S : List Char) (hS : S.all isWs = true)
    (hMne : M ≠ []) (hM1 : M.dropWhile isWs = M)
    (hM2 : M.reverse.dropWhile isWs = M.reverse) :
    pyStrip (M ++ S) = M := by
  unfold pyStrip
  rw [dropWhile_eq_self_append isWs M S hM1 hMne, List.reverse_append,
    dropWhile_append_of_all isWs S.reverse M.reverse (by simpa using hS),
    hM2, List.reverse_reverse]

def bareLineS (x : String) : String := "- " ++ x

def dirLineS (x : String) : String := "- " ++ x ++ "/ (2 files)"

theorem appendMerge (s : String) :
    ((((s ++ "/ (") ++ "2") ++ " ") ++ "files") ++ ")" = s ++ "/ (2 files)" := by
  apply String.ext
  simp only [strDataAppend, List.append_assoc]
  congr 1

/-- The cwd tree of the summarizer claim: three regular files and one
subdirectory holding two regular files. -/
def c8Tree (a b c d e f ca cb cc ce cf : String) : FsNode :=
  FsNode.dir [(a, FsNode.file ca), (b, FsNode.file cb), (c, FsNode.file cc),
    (d, FsNode.dir [(e, FsNode.file ce), (f, FsNode.file cf)])]

/-- The stripped text `get_project_structure` emits for `c8Tree`. -/
def c8Mid (a b c d pl pf : String) : List Char :=
  ('-' :: ' ' :: a.data) ++ '\n' :: (('-' :: ' ' :: b.data) ++ '\n' ::
    (('-' :: ' ' :: c.data) ++ '\n' :: (('-' :: ' ' :: (d.data ++ ("/ (2 files)").data))
      ++ '\n' :: '\n' :: (("## Estimated project type : ").data
        ++ (pl.data ++ ((" / ").data ++ pf.data))))))

theorem listDirTreeF_c8
    (a b c d e f ca cb cc ce cf : String)
    (ha1 : startsWithS a "." = false) (ha2 : a ∉ denyListEight)
    (hb1 : startsWithS b "." = false) (hb2 : b ∉ denyListEight)
    (hc1 : startsWithS c "." = false) (hc2 : c ∉ denyListEight)
    (hd1 : startsWithS d "." = false) (hd2 : d ∉ denyListEight)
    (he1 : startsWithS e "." = false) (he2 : e ∉ denyListEight)
    (hf1 : startsWithS f "." = false) (hf2 : f ∉ denyListEight)
    (hsort1 : sortChildren [(a, FsNode.file ca), (b, FsNode.file cb), (c, FsNode.file cc),
        (d, FsNode.dir [(e, FsNode.file ce), (f, FsNode.file cf)])]
      = [(a, FsNode.file ca), (b, FsNode.file cb), (c, FsNode.file cc),
        (d, FsNode.dir [(e, FsNode.file ce), (f, FsNode.file cf)])])
    (hsort2 : sortChildren [(e, FsNode.file ce), (f, FsNode.file cf)]
      = [(e, FsNode.file ce), (f, FsNode.file cf)]) :
    listDirTreeF (fsSize (c8Tree a b c d e f ca cb cc ce cf))
      (c8Tree a b c d e f ca cb cc ce cf) 0
      = [bareLineS a, bareLineS b, bareLineS c, dirLineS d] := by
  have hsz : fsSize (c8Tree a b c d e f ca cb cc ce cf) = 7 := by
    simp [c8Tree, fsSize, fsSizeL]
  rw [hsz]
  have hts : toString (2 : Nat) = "2" := rfl
  simp [c8Tree, listDirTreeF, hsort1, hsort2, ha1, ha2, hb1, hb2, hc1, hc2, hd1, hd2,
    he1, he2, hf1, hf2, nonHiddenCount, childCountNoun, indentPad, bareLineS, dirLineS, hts,
    appendMerge]

theorem structureText_c8
    (cwd : List String) (links : List (List String × List String))
    (a b c d e f ca cb cc ce cf pl pf : String)
    (ha1 : startsWithS a "." = false) (ha2 : a ∉ denyListEight)
    (hb1 : startsWithS b "." = false) (hb2 : b ∉ denyListEight)
    (hc1 : startsWithS c "." = false) (hc2 : c ∉ denyListEight)
    (hd1 : startsWithS d "." = false) (hd2 : d ∉ denyListEight)
    (he1 : startsWithS e "." = false) (he2 : e ∉ denyListEight)
    (hf1 : startsWithS f "." = false) (hf2 : f ∉ denyListEight)
    (hsort1 : sortChildren [(a, FsNode.file ca), (b, FsNode.file cb), (c, FsNode.file cc),
        (d, FsNode.dir [(e, FsNode.file ce), (f, FsNode.file cf)])]
      = [(a, FsNode.file ca), (b, FsNode.file cb), (c, FsNode.file cc),
        (d, FsNode.dir [(e, FsNode.file ce), (f, FsNode.file cf)])])
    (hsort2 : sortChildren [(e, FsNode.file ce), (f, FsNode.file cf)]
      = [(e, FsNode.file ce), (f, FsNode.file cf)]) :
    (structureText ⟨cwd, links, c8Tree a b c d e f ca cb cc ce cf, pl, pf⟩).data
      = c8Mid a b c d pl pf ++ ['\n', '\n'] := by
  have hlines := listDirTreeF_c8 a b c d e f ca cb cc ce cf
    ha1 ha2 hb1 hb2 hc1 hc2 hd1 hd2 he1 he2 hf1 hf2 hsort1 hsort2
  unfold structureText
  dsimp only
  rw [hlines]
  have hl1 : ("\n\n## Estimated project type : ").data
      = '\n' :: '\n' :: ("## Estimated project type : ").data := rfl
  have hl2 : ("\n\n").data = ['\n', '\n'] := rfl
  have hbd : ∀ x : String, (bareLineS x).data = '-' :: ' ' :: x.data := fun x => rfl
  have hdd : (dirLineS d).data = '-' :: ' ' :: (d.data ++ ("/ (2 files)").data) := rfl
  simp [c8Mid, joinWith, mkData, strDataAppend, hl1, hl2, hbd, hdd,
    List.intercalate, List.intersperse, List.append_assoc]

/-- C8: for a working directory whose non-hidden children are exactly three
regular files and one subdirectory containing exactly two non-hidden regular
files and no subdirectories, `get_project_structure` reports a total-file
count of 5, the total computed by re-parsing the emitted tree text (summing
`(N files)` annotations plus counting bare top-level bullet lines).  The
name and project-type hypotheses exclude the pathological cases the fragile
text round-trip cannot survive: names or type strings containing `(`,
newlines, `/`, or trailing whitespace, empty names, hidden or deny-listed
names, and the children are listed in sorted order. -/
theorem C8_total_file_count
    (cwd : List String) (links : List (List String × List String))
    (a b c d e f ca cb cc ce cf pl pf : String)
    (ha1 : startsWithS a "." = false) (ha2 : a ∉ denyListEight)
    (ha3 : containsL ['('] a.data = false) (ha4 : containsL ['\n'] a.data = false)
    (ha5 : containsL ['/'] a.data = false) (ha6 : a.data ≠ [])
    (ha7 : a.data.reverse.dropWhile isWs = a.data.reverse)
    (hb1 : startsWithS b "." = false) (hb2 : b ∉ denyListEight)
    (hb3 : containsL ['('] b.data = false) (hb4 : containsL ['\n'] b.data = false)
    (hb5 : containsL ['/'] b.data = false) (hb6 : b.data ≠ [])
    (hb7 : b.data.reverse.dropWhile isWs = b.data.reverse)
    (hc1 : startsWithS c "." = false) (hc2 : c ∉ denyListEight)
    (hc3 : containsL ['('] c.data = false) (hc4 : containsL ['\n'] c.data = false)
    (hc5 : containsL ['/'] c.data = false) (hc6 : c.data ≠ [])
    (hc7 : c.data.reverse.dropWhile isWs = c.data.reverse)
    (hd1 : startsWithS d "." = false) (hd2 : d ∉ denyListEight)
    (hd3 : containsL ['('] d.data = false) (hd4 : containsL ['\n'] d.data = false)
    (he1 : startsWithS e "." = false) (he2 : e ∉ denyListEight)
    (hf1 : startsWithS f "." = false) (hf2 : f ∉ denyListEight)
    (hp1 : containsL ['('] pl.data = false) (hp2 : containsL ['\n'] pl.data = false)
    (hq1 : containsL ['('] pf.data = false) (hq2 : containsL ['\n'] pf.data = false)
    (hq3 : pf.data ≠ [])
    (hq4 : pf.data.reverse.dropWhile isWs = pf.data.reverse)
    (hsort1 : sortChildren [(a, FsNode.file ca), (b, FsNode.file cb), (c, FsNode.file cc),
        (d, FsNode.dir [(e, FsNode.file ce), (f, FsNode.file cf)])]
      = [(a, FsNode.file ca), (b, FsNode.file cb), (c, FsNode.file cc),
        (d, FsNode.dir [(e, FsNode.file ce), (f, FsNode.file cf)])])
    (hsort2 : sortChildren [(e, FsNode.file ce), (f, FsNode.file cf)]
      = [(e, FsNode.file ce), (f, FsNode.file cf)]) :
    count_files (structureText ⟨cwd, links, c8Tree a b c d e f ca cb cc ce cf, pl, pf⟩) = 5 ∧
      get_project_structure ⟨cwd, links, c8Tree a b c d e f ca cb cc ce cf, pl, pf⟩
        = structureText ⟨cwd, links, c8Tree a b c d e f ca cb cc ce cf, pl, pf⟩
          ++ "\n\n## Total files: " ++ "5" ++ "\n\n" := by
  have hdata := structureText_c8 cwd links a b c d e f ca cb cc ce cf pl pf
    ha1 ha2 hb1 hb2 hc1 hc2 hd1 hd2 he1 he2 hf1 hf2 hsort1 hsort2
  have hws : isWs '-' = false := by decide
  have hM1 : (c8Mid a b c d pl pf).dropWhile isWs = c8Mid a b c d pl pf := by
    simp [c8Mid, List.dropWhile_cons, hws]
  have hsplitPre : c8Mid a b c d pl pf
      = (('-' :: ' ' :: a.data) ++ '\n' :: (('-' :: ' ' :: b.data) ++ '\n' ::
          (('-' :: ' ' :: c.data) ++ '\n' :: (('-' :: ' ' :: (d.data ++ ("/ (2 files)").data))
            ++ '\n' :: '\n' :: (("## Estimated project type : ").data
              ++ (pl.data ++ (" / ").data))))))
        ++ pf.data := by
    simp [c8Mid, List.append_assoc]
  have hM2 : (c8Mid a b c d pl pf).reverse.dropWhile isWs
      = (c8Mid a b c d pl pf).reverse := by
    rw [hsplitPre, List.reverse_append]
    exact dropWhile_eq_self_append isWs _ _ hq4 (by simpa using hq3)
  have hMne : c8Mid a b c d pl pf ≠ [] := by simp [c8Mid]
  have hstrip : pyStrip ((structureText
      ⟨cwd, links, c8Tree a b c d e f ca cb cc ce cf, pl, pf⟩).data)
      = c8Mid a b c d pl pf := by
    rw [hdata]
    exact pyStrip_append_ws _ _ (by decide) hMne hM1 hM2
  have hna : containsL ['\n'] ('-' :: ' ' :: a.data) = false := by
    rw [containsL_one_cons, containsL_one_cons, ha4]
    rfl
  have hnb : containsL ['\n'] ('-' :: ' ' :: b.data) = false := by
    rw [containsL_one_cons, containsL_one_cons, hb4]
    rfl
  have hnc : containsL ['\n'] ('-' :: ' ' :: c.data) = false := by
    rw [containsL_one_cons, containsL_one_cons, hc4]
    rfl
  have hnd : containsL ['\n'] ('-' :: ' ' :: (d.data ++ ("/ (2 files)").data)) = false := by
    rw [containsL_one_cons, containsL_one_cons, containsL_one_append, hd4]
    rfl
  have hnT : containsL ['\n'] (("## Estimated project type : ").data
      ++ (pl.data ++ ((" / ").data ++ pf.data))) = false := by
    rw [containsL_one_append, containsL_one_append, containsL_one_append, hp2, hq2]
    rfl
  have hsplit : splitOnCharL '\n' (c8Mid a b c d pl pf)
      = [('-' :: ' ' :: a.data), ('-' :: ' ' :: b.data), ('-' :: ' ' :: c.data),
         ('-' :: ' ' :: (d.data ++ ("/ (2 files)").data)), [],
         (("## Estimated project type : ").data ++ (pl.data ++ ((" / ").data ++ pf.data)))] := by
    unfold c8Mid
    rw [splitOnCharL_append_sep '\n' _ _ hna, splitOnCharL_append_sep '\n' _ _ hnb,
      splitOnCharL_append_sep '\n' _ _ hnc, splitOnCharL_append_sep '\n' _ _ hnd,
      splitOnCharL, if_pos rfl, splitOnCharL_no_sep '\n' _ hnT]
  have h0 : countLine ([] : List Char) = 0 := rfl
  have hcount : count_files (structureText
      ⟨cwd, links, c8Tree a b c d e f ca cb cc ce cf, pl, pf⟩) = 5 := by
    unfold count_files
    rw [hstrip, hsplit]
    simp only [List.map_cons, List.map_nil]
    rw [countLine_bare a.data ha6 ha3 ha5 ha7, countLine_bare b.data hb6 hb3 hb5 hb7,
      countLine_bare c.data hc6 hc3 hc5 hc7, countLine_dir d.data hd3,
      countLine_type pl.data pf.data hp1 hq1, h0]
    rfl
  refine ⟨hcount, ?_⟩
  show structureText ⟨cwd, links, c8Tree a b c d e f ca cb cc ce cf, pl, pf⟩
      ++ "\n\n## Total files: "
      ++ toString (count_files (structureText
          ⟨cwd, links, c8Tree a b c d e f ca cb cc ce cf, pl, pf⟩))
      ++ "\n\n" = _
  rw [hcount]
  rfl

theorem C8_total_file_count_witness :
    count_files (structureText ⟨["home"], [],
        c8Tree "a.txt" "b.txt" "c.txt" "sub" "x.txt" "y.txt" "" "" "" "" "",
        "Python", "None"⟩) = 5 ∧
      get_project_structure ⟨["home"], [],
          c8Tree "a.txt" "b.txt" "c.txt" "sub" "x.txt" "y.txt" "" "" "" "" "",
          "Python", "None"⟩
        = structureText ⟨["home"], [],
            c8Tree "a.txt" "b.txt" "c.txt" "sub" "x.txt" "y.txt" "" "" "" "" "",
            "Python", "None"⟩ ++ "\n\n## Total files: " ++ "5" ++ "\n\n" :=
  C8_total_file_count ["home"] [] "a.txt" "b.txt" "c.txt" "sub" "x.txt" "y.txt"
    "" "" "" "" "" "Python" "None"
    (by decide) (by decide) (by decide) (by decide) (by decide) (by decide) (by decide)
    (by decide) (by decide) (by decide) (by decide) (by decide) (by decide) (by decide)
    (by decide) (by decide) (by decide) (by decide) (by decide) (by decide) (by decide)
    (by decide) (by decide) (by decide) (by decide) (by decide) (by decide) (by decide)
    (by decide) (by decide) (by decide) (by decide) (by decide) (by decide) (by decide)
    rfl rfl

end CodeInvestigator
